import Mathlib

/-!
Verification of the statistics/filtering core of a student exam-score
analytics backend (an `AnalyticsService` built on a relational score store
plus a Redis-style cache).

The embedding mirrors the TypeScript source:

* JS numbers are modelled as exact rationals (`ℚ`); `Math.round` is
  `fun x => ⌊x + 1/2⌋` (half-toward-positive-infinity, as in JS), and the
  ubiquitous `Math.round(x * 100) / 100` two-decimal rounding is `round2`.
* `Math.sqrt` composed with that rounding is implemented with integer
  square roots (`jsSqrtRound100`); a bridging lemma proves it equal to
  rounding `Real.sqrt`.
* A score array entry is a `JsVal`: a number, `NaN`, or a non-number
  (`typeof score !== 'number'`).
* `Array.prototype.sort` with a consistent comparator is a stable sort;
  it is modelled by `List.insertionSort` on the comparator's `≤ 0`
  relation, which is stable in exactly the same sense.
* The relational store is a list of score rows; query-builder predicates
  become row predicates.  Wall-clock readings (`Date.now`,
  `toISOString`) are part of the modelled environment and constant
  within a run.
-/

namespace StudentDashboard

/-- JS `Math.round`: round half toward positive infinity. -/
def jsRound (x : ℚ) : ℤ := ⌊x + 1 / 2⌋

/-- The source's pervasive `Math.round(x * 100) / 100` (two decimals). -/
def round2 (x : ℚ) : ℚ := (jsRound (x * 100) : ℚ) / 100

/-- Floor of the real square root of a nonnegative rational, computed with
`Nat.sqrt` on `numerator * denominator`. -/
def ratSqrtFloor (t : ℚ) : ℕ := Nat.sqrt (t.num.toNat * t.den) / t.den

/-- JS `Math.round(Math.sqrt v * 100) / 100` for `0 ≤ v`, computed exactly:
`round (sqrt v * 100) = ⌊(√(40000 v) + 1) / 2⌋`. -/
def jsSqrtRound100 (v : ℚ) : ℚ := ((ratSqrtFloor (40000 * v) + 1) / 2 : ℕ) / 100

/-- An entry of a JS `number[]` as the statistics code receives it: a
finite number, `NaN`, or a value whose `typeof` is not `'number'`. -/
inductive JsVal where
  | num (q : ℚ)
  | nan
  | notNumber
deriving DecidableEq

/-- `typeof score === 'number' && !isNaN(score)`: the entries the level
classifier does not skip. -/
def JsVal.isValidNumber : JsVal → Bool
  | .num _ => true
  | .nan => false
  | .notNumber => false

/-- `SUBJECT_NAMES` from `core/constants/subjects.constant`. -/
def SUBJECT_NAMES : List String :=
  ["toan", "ngu_van", "ngoai_ngu", "vat_li", "hoa_hoc", "sinh_hoc",
   "lich_su", "dia_li", "gdcd"]

/-- `SUBJECT_DISPLAY_NAMES` from `core/constants/subjects.constant`. -/
def SUBJECT_DISPLAY_NAMES : List (String × String) :=
  [("toan", "Toán"), ("ngu_van", "Ngữ văn"), ("ngoai_ngu", "Ngoại ngữ"),
   ("vat_li", "Vật lý"), ("hoa_hoc", "Hóa học"), ("sinh_hoc", "Sinh học"),
   ("lich_su", "Lịch sử"), ("dia_li", "Địa lý"), ("gdcd", "Giáo dục công dân")]

/-- `SUBJECT_DISPLAY_NAMES[subject] || subject`. -/
def displayName (subject : String) : String :=
  (SUBJECT_DISPLAY_NAMES.lookup subject).getD subject

/-- `ScoreLevelFilter` enum of the request DTO. -/
inductive ScoreLevelFilter where
  | excellent
  | good
  | average
  | poor
deriving DecidableEq

/-- `AggregationType` enum of the request DTO. -/
inductive AggregationType where
  | count
  | percentage
  | both
deriving DecidableEq

/-- `SortBy` enum of the request DTO. -/
inductive SortBy where
  | subject_name
  | total_students
  | excellent_count
  | average_score
deriving DecidableEq

/-- The optional `percentages` block of a level statistic. -/
structure Percentages where
  excellent : ℚ
  good : ℚ
  average : ℚ
  poor : ℚ
deriving DecidableEq

/-- `EnhancedSubjectLevelStatDto`: bucket counts, total, optional
percentages. -/
structure EnhancedSubjectLevelStat where
  excellent : ℕ
  good : ℕ
  average : ℕ
  poor : ℕ
  total : ℕ
  percentages : Option Percentages
deriving DecidableEq

/-- Running bucket counters of `calculateLevelStatistics`. -/
structure BucketCounts where
  excellent : ℕ
  good : ℕ
  average : ℕ
  poor : ℕ
deriving DecidableEq

/-- One step of the `scores.forEach` classification loop: non-numbers and
`NaN` are skipped, numbers fall into exactly one half-open bucket. -/
def classifyScore (c : BucketCounts) (v : JsVal) : BucketCounts :=
  match v with
  | .num q =>
    if 8 ≤ q then { c with excellent := c.excellent + 1 }
    else if 6 ≤ q then { c with good := c.good + 1 }
    else if 4 ≤ q then { c with average := c.average + 1 }
    else { c with poor := c.poor + 1 }
  | .nan => c
  | .notNumber => c

/-- The classification loop over the whole array. -/
def bucketCounts (scores : List JsVal) : BucketCounts :=
  scores.foldl classifyScore ⟨0, 0, 0, 0⟩

/-- `Math.round((n / total) * 100 * 100) / 100`: a bucket percentage. -/
def pctOf (n total : ℕ) : ℚ := round2 ((n : ℚ) / (total : ℚ) * 100)

/-- `calculateLevelStatistics` of `AnalyticsService`.  Note that `total`
is `scores.length`, the raw array length, while the four bucket counters
only advance on valid numeric entries. -/
def calculateLevelStatistics (scores : List JsVal)
    (aggregationType : AggregationType) : EnhancedSubjectLevelStat :=
  if scores.length = 0 then
    { excellent := 0, good := 0, average := 0, poor := 0, total := 0,
      percentages := some ⟨0, 0, 0, 0⟩ }
  else
    let c := bucketCounts scores
    let total := scores.length
    { excellent := c.excellent, good := c.good, average := c.average,
      poor := c.poor, total := total,
      percentages :=
        if aggregationType = AggregationType.percentage ∨
            aggregationType = AggregationType.both then
          if 0 < total then
            some ⟨pctOf c.excellent total, pctOf c.good total,
                  pctOf c.average total, pctOf c.poor total⟩
          else some ⟨0, 0, 0, 0⟩
        else none }

/-- `StatisticalAnalysisDto`. -/
structure StatisticalAnalysis where
  mean : ℚ
  median : ℚ
  mode : ℚ
  standardDeviation : ℚ
  variance : ℚ
  max : ℚ
  min : ℚ
deriving DecidableEq

/-- The distinct score values in order of first occurrence: insertion
order of the `frequency` `Map` built by `calculateStatisticalAnalysis`. -/
def firstOccurrences (l : List ℚ) : List ℚ :=
  l.foldl (fun acc s => if s ∈ acc then acc else acc ++ [s]) []

/-- The `frequency.forEach` maximum-frequency scan: iterate the map in
insertion order, replacing the candidate only on strictly larger
frequency; the final frequency of a value is its count in `scores`. -/
def modeOf (scores : List ℚ) : ℚ :=
  ((firstOccurrences scores).foldl
    (fun p s => if p.2 < scores.count s then (s, scores.count s) else p)
    (scores.headD 0, 0)).1

/-- `calculateStatisticalAnalysis` of `AnalyticsService`: descriptive
statistics of a numeric score list, two-decimal rounded (except
`max`/`min`, returned raw). -/
def calculateStatisticalAnalysis (scores : List ℚ) : StatisticalAnalysis :=
  if scores.length = 0 then ⟨0, 0, 0, 0, 0, 0, 0⟩
  else
    let sortedScores := scores.insertionSort (· ≤ ·)
    let sum := scores.foldl (· + ·) 0
    let mean := sum / (scores.length : ℚ)
    let middle := sortedScores.length / 2
    let median :=
      if sortedScores.length % 2 = 0 then
        (sortedScores.getD (middle - 1) 0 + sortedScores.getD middle 0) / 2
      else sortedScores.getD middle 0
    let variance :=
      scores.foldl (fun s q => s + (q - mean) ^ 2) 0 / (scores.length : ℚ)
    ⟨round2 mean, round2 median, round2 (modeOf scores),
     jsSqrtRound100 variance, round2 variance,
     scores.foldl max (scores.headD 0), scores.foldl min (scores.headD 0)⟩

/-- `getSubjectsToAnalyze`: `subjects?.length` truthiness, then either the
registry-filtered request or a copy of the full registry. -/
def getSubjectsToAnalyze (subjects : Option (List String)) : List String :=
  match subjects with
  | some l =>
    if l.length ≠ 0 then l.filter (fun s => SUBJECT_NAMES.contains s)
    else SUBJECT_NAMES
  | none => SUBJECT_NAMES

/-- `AdvancedReportFilterDto`: every field optional on the wire.  The two
`include*` booleans are modelled directly as their truthiness (the code
only ever tests them with `&&`). -/
structure AdvancedReportFilter where
  subjects : Option (List String) := none
  foreignLanguageCodes : Option (List String) := none
  minScore : Option ℚ := none
  maxScore : Option ℚ := none
  scoreLevels : Option (List ScoreLevelFilter) := none
  aggregationType : Option AggregationType := none
  sortBy : Option SortBy := none
  sortOrder : Option String := none
  minStudentCount : Option ℕ := none
  format : Option String := none
  includeComparison : Bool := false
  includeStatistics : Bool := false
deriving DecidableEq

/-- A row of the `subject_score` table joined with its student: subject
name, float score, the student's registration number `sbd` and foreign
language code `ma_ngoai_ngu`. -/
structure ScoreRow where
  subject : String
  score : ℚ
  sbd : String
  ma_ngoai_ngu : String
deriving DecidableEq

/-- The modelled environment of one request: the relational store
(`studentRepo.count()` and all score rows) and the constant wall-clock
reading used for `reportGeneratedAt`. -/
structure Db where
  studentCount : ℕ
  rows : List ScoreRow
  now : String
deriving DecidableEq

/-- One `scoreLevels` disjunct of `buildBaseQuery`. -/
def rowMatchesLevel (level : ScoreLevelFilter) (q : ℚ) : Bool :=
  match level with
  | .excellent => decide (8 ≤ q)
  | .good => decide (6 ≤ q) && decide (q < 8)
  | .average => decide (4 ≤ q) && decide (q < 6)
  | .poor => decide (q < 4)

/-- Row semantics of `buildBaseQuery`: conjunction of the optional
min/max bounds, the language `IN` list, and the `OR` of the requested
score levels. -/
def matchesBaseQuery (f : AdvancedReportFilter) (r : ScoreRow) : Bool :=
  (match f.minScore with
   | some m => decide (m ≤ r.score)
   | none => true) &&
  (match f.maxScore with
   | some m => decide (r.score ≤ m)
   | none => true) &&
  (match f.foreignLanguageCodes with
   | some codes =>
     if codes.length ≠ 0 then codes.contains r.ma_ngoai_ngu else true
   | none => true) &&
  (match f.scoreLevels with
   | some levels =>
     if levels.length ≠ 0 then levels.any (fun l => rowMatchesLevel l r.score)
     else true
   | none => true)

/-- The score values `analyzeSubjectSafe` fetches for one subject:
`buildBaseQuery` plus `score.subject = :subject`. -/
def getFilteredScores (db : Db) (f : AdvancedReportFilter)
    (subject : String) : List ℚ :=
  (db.rows.filter
    (fun r => matchesBaseQuery f r && r.subject == subject)).map (·.score)

/-- All (unfiltered) score values of one subject
(`scoreRepo.find({ where: { subject } })`). -/
def allScoresFor (db : Db) (subject : String) : List ℚ :=
  (db.rows.filter (fun r => r.subject == subject)).map (·.score)

/-- The average the comparison engine uses: mean when nonempty, else 0. -/
def avgOrZero (l : List ℚ) : ℚ :=
  if 0 < l.length then l.foldl (· + ·) 0 / (l.length : ℚ) else 0

/-- The per-subject unfiltered averages of every registry subject, sorted
descending by average (`sort((a, b) => b.average - a.average)`: a stable
sort whose "comes before" relation is `b.average ≤ a.average`). -/
def rankedSubjectAverages (db : Db) : List (String × ℚ) :=
  (SUBJECT_NAMES.map (fun subj => (subj, avgOrZero (allScoresFor db subj)))
    ).insertionSort (fun a b => b.2 ≤ a.2)

/-- JS `Array.prototype.findIndex`: index of first match or `-1`. -/
def jsFindIndex (p : α → Bool) (l : List α) : ℤ :=
  match l.findIdx? p with
  | some i => (i : ℤ)
  | none => -1

/-- The `overallComparison` half of `ComparisonDataDto`. -/
structure OverallComparison where
  subjectAverage : ℚ
  overallAverage : ℚ
  difference : ℚ
  percentageDifference : ℚ
deriving DecidableEq

/-- The `ranking` half of `ComparisonDataDto`.  `position` is
`findIndex + 1`, hence an integer that is `0` when the subject is not in
the registry. -/
structure Ranking where
  position : ℤ
  totalSubjects : ℕ
  percentile : ℤ
deriving DecidableEq

/-- `ComparisonDataDto`. -/
structure ComparisonData where
  overallComparison : OverallComparison
  ranking : Ranking
deriving DecidableEq

/-- `calculateComparison` of `AnalyticsService`: filtered subject average
against the unfiltered subject average, plus rank-based percentile over
the registry's unfiltered averages. -/
def calculateComparison (db : Db) (subject : String)
    (subjectScores : List ℚ) : ComparisonData :=
  let overallAverage := avgOrZero (allScoresFor db subject)
  let subjectAverage := avgOrZero subjectScores
  let difference := subjectAverage - overallAverage
  let percentageDifference :=
    if 0 < overallAverage then difference / overallAverage * 100 else 0
  let sorted := rankedSubjectAverages db
  let position := jsFindIndex (fun s => s.1 == subject) sorted + 1
  let n := sorted.length
  let percentile := jsRound (((n : ℚ) - (position : ℚ) + 1) / (n : ℚ) * 100)
  { overallComparison :=
      { subjectAverage := round2 subjectAverage,
        overallAverage := round2 overallAverage,
        difference := round2 difference,
        percentageDifference := round2 percentageDifference },
    ranking :=
      { position := position, totalSubjects := n, percentile := percentile } }

/-- `getTopPerformersForSubject`: the subject's rows ordered by score
descending (modelled as a stable descending sort), first `limit`
registration numbers. -/
def getTopPerformersForSubject (db : Db) (subject : String)
    (limit : ℕ) : List String :=
  (((db.rows.filter (fun r => r.subject == subject)).insertionSort
      (fun a b => b.score ≤ a.score)).take limit).map (·.sbd)

/-- `EnhancedSubjectReportDto` plus the internal `scores` property the
service smuggles along for the pooled overall statistics. -/
structure SubjectReport where
  subject : String
  subjectDisplayName : String
  statistics : EnhancedSubjectLevelStat
  statisticalAnalysis : Option StatisticalAnalysis
  comparison : Option ComparisonData
  averageScore : ℚ
  topPerformers : Option (List String)
  scores : List ℚ
deriving DecidableEq

/-- `analyzeSubjectSafe`: fetch filtered scores, always compute the level
statistic and average, optionally descriptive statistics and comparison
(both only on nonempty score lists), top performers on nonempty lists. -/
def analyzeSubjectSafe (db : Db) (f : AdvancedReportFilter)
    (subject : String) : SubjectReport :=
  let scoreValues := getFilteredScores db f subject
  let basicStats :=
    calculateLevelStatistics (scoreValues.map JsVal.num)
      (f.aggregationType.getD AggregationType.both)
  let statisticalAnalysis :=
    if f.includeStatistics ∧ 0 < scoreValues.length then
      some (calculateStatisticalAnalysis scoreValues)
    else none
  let comparison :=
    if f.includeComparison ∧ 0 < scoreValues.length then
      some (calculateComparison db subject scoreValues)
    else none
  let topPerformers :=
    if 0 < scoreValues.length then
      some (getTopPerformersForSubject db subject 3)
    else none
  let averageScore :=
    if 0 < scoreValues.length then
      round2 (scoreValues.foldl (· + ·) 0 / (scoreValues.length : ℚ))
    else 0
  { subject := subject, subjectDisplayName := displayName subject,
    statistics := basicStats, statisticalAnalysis := statisticalAnalysis,
    comparison := comparison, averageScore := averageScore,
    topPerformers := topPerformers, scores := scoreValues }

/-- Codepoint-lexicographic three-way comparison of character lists;
models `String.prototype.localeCompare` (the display names used by the
service are pairwise codepoint-comparable the same way the default
collator orders them, and only the sign of the result is consumed). -/
def cmpChars : List Char → List Char → ℤ
  | [], [] => 0
  | [], _ :: _ => -1
  | _ :: _, [] => 1
  | a :: s, b :: t =>
    if a.toNat < b.toNat then -1
    else if b.toNat < a.toNat then 1
    else cmpChars s t

/-- `a.localeCompare(b)`, sign-faithful. -/
def localeCompare (a b : String) : ℤ := cmpChars a.data b.data

/-- The `switch (sortBy)` of the `sortResults` comparator: the signed
comparison value before the order flip (the `default` branch, taken for
an absent or unrecognized `sortBy`, compares display names). -/
def cmpKey (f : AdvancedReportFilter) (a b : SubjectReport) : ℚ :=
  match f.sortBy with
  | some SortBy.subject_name =>
    (localeCompare a.subjectDisplayName b.subjectDisplayName : ℚ)
  | some SortBy.total_students =>
    (a.statistics.total : ℚ) - (b.statistics.total : ℚ)
  | some SortBy.excellent_count =>
    (a.statistics.excellent : ℚ) - (b.statistics.excellent : ℚ)
  | some SortBy.average_score => a.averageScore - b.averageScore
  | none => (localeCompare a.subjectDisplayName b.subjectDisplayName : ℚ)

/-- The full comparator of `sortResults`: `sortOrder === 'DESC'` negates
the switch value. -/
def cmpReports (f : AdvancedReportFilter) (a b : SubjectReport) : ℚ :=
  if f.sortOrder == some "DESC" then -cmpKey f a b else cmpKey f a b

/-- `sortResults`: JS `Array.prototype.sort` with the comparator above —
a stable sort whose "comes before or stays" relation is
`cmpReports f a b ≤ 0`. -/
def sortResults (results : List SubjectReport)
    (f : AdvancedReportFilter) : List SubjectReport :=
  results.insertionSort (fun a b => cmpReports f a b ≤ 0)

/-- The per-subject loop of `generateAdvancedStatisticsFromDatabase`:
analyze each subject in order; a subject is kept (and its scores pooled)
iff `minStudentCount` is absent/`0` or its `statistics.total` reaches
it. -/
def minCountOk (f : AdvancedReportFilter) (total : ℕ) : Bool :=
  match f.minStudentCount with
  | some k => k == 0 || decide (k ≤ total)
  | none => true

/-- The loop accumulating `subjectReports` and `allFilteredScores`. -/
def processSubjects (db : Db) (f : AdvancedReportFilter) :
    List SubjectReport × List ℚ :=
  (getSubjectsToAnalyze f.subjects).foldl
    (fun acc subject =>
      let subjectData := analyzeSubjectSafe db f subject
      if minCountOk f subjectData.statistics.total then
        (acc.1 ++ [subjectData], acc.2 ++ subjectData.scores)
      else acc)
    ([], [])

/-- One element of `generateChartData`. -/
structure ChartItem where
  subject : String
  excellent : ℕ
  good : ℕ
  average : ℕ
  poor : ℕ
  total : ℕ
  averageScore : ℚ
  percentages : Option Percentages
deriving DecidableEq

/-- `generateChartData`. -/
def generateChartData (results : List SubjectReport) : List ChartItem :=
  results.map (fun r =>
    { subject := r.subjectDisplayName, excellent := r.statistics.excellent,
      good := r.statistics.good, average := r.statistics.average,
      poor := r.statistics.poor, total := r.statistics.total,
      averageScore := r.averageScore,
      percentages := r.statistics.percentages })

/-- Decimal rendering of a JS number, exact on integer-valued numbers
(the only numeric literals the key/description theorems feed in; JS
shortest-roundtrip printing of non-integers is not reproduced). -/
def qRender (q : ℚ) : String :=
  if q.den = 1 then toString q.num else toString q.num ++ "/" ++ toString q.den

/-- `getAppliedFilters`: one human-readable string per populated filter
field, in fixed field order. -/
def getAppliedFilters (f : AdvancedReportFilter) : List String :=
  (match f.subjects with
   | some l =>
     if l.length ≠ 0 then ["subjects: " ++ String.intercalate ", " l] else []
   | none => []) ++
  (match f.foreignLanguageCodes with
   | some l =>
     if l.length ≠ 0 then ["languages: " ++ String.intercalate ", " l] else []
   | none => []) ++
  (match f.minScore with
   | some m => ["minScore: " ++ qRender m]
   | none => []) ++
  (match f.maxScore with
   | some m => ["maxScore: " ++ qRender m]
   | none => []) ++
  (match f.scoreLevels with
   | some l =>
     if l.length ≠ 0 then
       ["levels: " ++ String.intercalate ", "
         (l.map (fun lv =>
           match lv with
           | .excellent => "excellent"
           | .good => "good"
           | .average => "average"
           | .poor => "poor"))]
     else []
   | none => []) ++
  (match f.minStudentCount with
   | some k => if k ≠ 0 then ["minStudents: " ++ toString k] else []
   | none => [])

/-- The `summary` block of `buildAdvancedSummary` (wall-clock durations
modelled as 0). -/
structure Summary where
  totalStudents : ℕ
  totalScores : ℕ
  averageScore : ℚ
  filteredStudents : ℕ
  appliedFilters : List String
  reportGeneratedAt : String
  processingTimeMs : ℕ
deriving DecidableEq

/-- Response metadata; fields the fresh generator leaves unset are
`none`. -/
structure Metadata where
  cacheUsed : Bool
  queryOptimized : Bool
  dataSource : String
  processingTimeMs : ℕ
  cacheHit : Option Bool
  cacheStore : Option String
  version : String
  filtersApplied : Option ℕ
  cacheTtl : Option ℕ
deriving DecidableEq

/-- `AdvancedReportResponseDto`. -/
structure AdvancedReport where
  subjects : List SubjectReport
  summary : Summary
  chartData : List ChartItem
  overallStatistics : Option StatisticalAnalysis
  metadata : Metadata
deriving DecidableEq

/-- `buildAdvancedSummary`. -/
def buildAdvancedSummary (db : Db) (f : AdvancedReportFilter)
    (results : List SubjectReport) : Summary :=
  let overallAverage :=
    if 0 < results.length then
      (results.foldl (fun s r => s + r.averageScore) 0) / (results.length : ℚ)
    else 0
  { totalStudents := db.studentCount, totalScores := db.rows.length,
    averageScore := round2 overallAverage,
    filteredStudents := results.foldl (fun s r => s + r.statistics.total) 0,
    appliedFilters := getAppliedFilters f,
    reportGeneratedAt := db.now, processingTimeMs := 0 }

/-- `generateAdvancedStatisticsFromDatabase`: the fresh (cache-miss)
pipeline.  The subject loop runs in registry/request order; the in-place
`sortResults` happens before chart data and summary are built; the
pooled `allFilteredScores` feed the optional overall statistics. -/
def generateAdvancedStatisticsFromDatabase (db : Db)
    (f : AdvancedReportFilter) : AdvancedReport :=
  let processed := processSubjects db f
  let allFilteredScores := processed.2
  let sorted := sortResults processed.1 f
  let overallStatistics :=
    if f.includeStatistics ∧ 0 < allFilteredScores.length then
      some (calculateStatisticalAnalysis allFilteredScores)
    else none
  { subjects := sorted,
    summary := buildAdvancedSummary db f sorted,
    chartData := generateChartData sorted,
    overallStatistics := overallStatistics,
    metadata :=
      { cacheUsed := false, queryOptimized := true,
        dataSource := "postgresql", processingTimeMs := 0,
        cacheHit := none, cacheStore := none, version := "v2-advanced",
        filtersApplied := none, cacheTtl := none } }

/-- A value of a filter-DTO field, as `JSON.stringify` sees it. -/
inductive JVal where
  | jnum (q : ℚ)
  | jstr (s : String)
  | jbool (b : Bool)
  | jarrStr (l : List String)
  | jarrNum (l : List ℚ)
deriving DecidableEq

/-- A JS object is an ordered list of key/value pairs; property access is
order-independent, `JSON.stringify` is not. -/
abbrev FilterObj := List (String × JVal)

/-- JSON string quoting (the field names and enum strings involved need
no escaping). -/
def jsonQuote (s : String) : String := "\"" ++ s ++ "\""

/-- `JSON.stringify` of one field value. -/
def renderJVal : JVal → String
  | .jnum q => qRender q
  | .jstr s => jsonQuote s
  | .jbool b => cond b "true" "false"
  | .jarrStr l => "[" ++ String.intercalate "," (l.map jsonQuote) ++ "]"
  | .jarrNum l => "[" ++ String.intercalate "," (l.map qRender) ++ "]"

/-- `JSON.stringify` of a filter object: fields serialized in insertion
order, not sorted. -/
def jsonStringifyObj (fields : List (String × JVal)) : String :=
  "\x7b" ++
    String.intercalate ","
      (fields.map (fun kv => jsonQuote kv.1 ++ ":" ++ renderJVal kv.2)) ++
  "\x7d"

/-- The cache key `getAdvancedSubjectStatistics` derives from the raw
filter DTO: `subject_statistics_${JSON.stringify(filterDto)}`. -/
def advancedCacheKey (obj : FilterObj) : String :=
  "subject_statistics_" ++ jsonStringifyObj obj

/-- Typed view of an object field holding a string list. -/
def fieldStrList (obj : FilterObj) (k : String) : Option (List String) :=
  match obj.lookup k with
  | some (JVal.jarrStr l) => some l
  | _ => none

/-- Typed view of a numeric object field. -/
def fieldNum (obj : FilterObj) (k : String) : Option ℚ :=
  match obj.lookup k with
  | some (JVal.jnum q) => some q
  | _ => none

/-- Typed view of a string object field. -/
def fieldStr (obj : FilterObj) (k : String) : Option String :=
  match obj.lookup k with
  | some (JVal.jstr s) => some s
  | _ => none

/-- Typed view of a boolean object field. -/
def fieldBool (obj : FilterObj) (k : String) : Option Bool :=
  match obj.lookup k with
  | some (JVal.jbool b) => some b
  | _ => none

/-- DTO enum decoding for `scoreLevels` (validated upstream, so unknown
strings cannot occur; they decode to nothing). -/
def parseLevel : String → Option ScoreLevelFilter
  | "excellent" => some .excellent
  | "good" => some .good
  | "average" => some .average
  | "poor" => some .poor
  | _ => none

/-- DTO enum decoding for `aggregationType`. -/
def parseAggregation : String → Option AggregationType
  | "count" => some .count
  | "percentage" => some .percentage
  | "both" => some .both
  | _ => none

/-- DTO enum decoding for `sortBy`; unrecognized strings fall to `none`,
which the comparator's `default` branch handles. -/
def parseSortBy : String → Option SortBy
  | "subject_name" => some .subject_name
  | "total_students" => some .total_students
  | "excellent_count" => some .excellent_count
  | "average_score" => some .average_score
  | _ => none

/-- The typed filter a raw request object denotes (the DTO binding the
HTTP layer performs); field lookup is insertion-order independent. -/
def semFilter (obj : FilterObj) : AdvancedReportFilter :=
  { subjects := fieldStrList obj "subjects",
    foreignLanguageCodes := fieldStrList obj "foreignLanguageCodes",
    minScore := fieldNum obj "minScore",
    maxScore := fieldNum obj "maxScore",
    scoreLevels :=
      (fieldStrList obj "scoreLevels").map (fun l => l.filterMap parseLevel),
    aggregationType := (fieldStr obj "aggregationType").bind parseAggregation,
    sortBy := (fieldStr obj "sortBy").bind parseSortBy,
    sortOrder := fieldStr obj "sortOrder",
    minStudentCount :=
      (fieldNum obj "minStudentCount").map (fun q => q.num.toNat),
    format := fieldStr obj "format",
    includeComparison := (fieldBool obj "includeComparison").getD false,
    includeStatistics := (fieldBool obj "includeStatistics").getD false }

/-- `CacheService.generateKey`: `${prefix || 'student_dashboard'}:${key}`. -/
def cacheServiceKey (pfx : Option String) (key : String) : String :=
  pfx.getD "student_dashboard" ++ ":" ++ key

/-- The Redis store as seen through `CacheService` for advanced reports:
an association list from full keys to stored (serialized) reports. -/
abbrev AdvancedCacheState := List (String × AdvancedReport)

/-- `cacheService.get(key, { prefix: 'analytics' })` for advanced
reports. -/
def advCacheGet (st : AdvancedCacheState) (key : String) :
    Option AdvancedReport :=
  st.lookup (cacheServiceKey (some "analytics") key)

/-- `cacheService.set(key, value, { prefix: 'analytics' })`; the value is
serialized at call time, so later mutations of the live object do not
reach the store. -/
def advCacheSet (st : AdvancedCacheState) (key : String)
    (v : AdvancedReport) : AdvancedCacheState :=
  (cacheServiceKey (some "analytics") key, v) :: st

/-- `CACHE_TTL.MEDIUM` from `core/config/redis.config`. -/
def CACHE_TTL_MEDIUM : ℕ := 300

/-- `getAdvancedSubjectStatistics`: cache-aside orchestration.  On a hit
the stored body is returned with refreshed metadata (`cacheHit = true`);
on a miss the fresh report is stored (with its pre-update metadata, since
`set` serializes before the caller assigns the final metadata) and
returned with full miss metadata. -/
def getAdvancedSubjectStatistics (db : Db) (filterDto : FilterObj)
    (st : AdvancedCacheState) : AdvancedReport × AdvancedCacheState :=
  let cacheKey := advancedCacheKey filterDto
  match advCacheGet st cacheKey with
  | some cached =>
    ({ cached with
        metadata :=
          { cached.metadata with
              cacheUsed := true, processingTimeMs := 0,
              cacheHit := some true, cacheStore := some "redis",
              version := "v2-advanced" } }, st)
  | none =>
    let result := generateAdvancedStatisticsFromDatabase db (semFilter filterDto)
    let st2 := advCacheSet st cacheKey result
    ({ result with
        metadata :=
          { cacheUsed := false, queryOptimized := true,
            dataSource := "postgresql", processingTimeMs := 0,
            cacheHit := some false, cacheStore := some "redis",
            version := "v2-advanced",
            filtersApplied := some (getAppliedFilters (semFilter filterDto)).length,
            cacheTtl := some CACHE_TTL_MEDIUM } }, st2)

/-- `ReportFilterDto`, the narrow backward-compatible filter. -/
structure ReportFilter where
  subjects : Option (List String) := none
  format : Option String := none
deriving DecidableEq

/-- The bucket-count block of the basic (old-format) subject entry. -/
structure BasicStatistics where
  excellent : ℕ
  good : ℕ
  average : ℕ
  poor : ℕ
  total : ℕ
deriving DecidableEq

/-- One subject entry of `SubjectReportResponseDto`. -/
structure BasicSubjectEntry where
  subject : String
  subjectDisplayName : String
  statistics : BasicStatistics
  percentages : Percentages
deriving DecidableEq

/-- The summary block of `SubjectReportResponseDto`. -/
structure BasicSummary where
  totalStudents : ℕ
  totalScores : ℕ
  averageScore : ℚ
  reportGeneratedAt : String
deriving DecidableEq

/-- `SubjectReportResponseDto`. -/
structure BasicReport where
  subjects : List BasicSubjectEntry
  summary : BasicSummary
  chartData : List ChartItem
deriving DecidableEq

/-- The advanced filter `getSubjectStatistics` builds from the old DTO:
statistics and comparison disabled, percentages always on. -/
def convertReportFilter (f : ReportFilter) : AdvancedReportFilter :=
  { subjects := f.subjects,
    format := some (match f.format with
      | some s => if s = "" then "table" else s
      | none => "table"),
    aggregationType := some AggregationType.both,
    includeComparison := false,
    includeStatistics := false }

/-- The old-format conversion inside `getSubjectStatistics` (percentages
fall back to zeros when absent). -/
def toBasicReport (adv : AdvancedReport) : BasicReport :=
  { subjects := adv.subjects.map (fun s =>
      { subject := s.subject,
        subjectDisplayName := s.subjectDisplayName,
        statistics :=
          { excellent := s.statistics.excellent, good := s.statistics.good,
            average := s.statistics.average, poor := s.statistics.poor,
            total := s.statistics.total },
        percentages := s.statistics.percentages.getD ⟨0, 0, 0, 0⟩ }),
    summary :=
      { totalStudents := adv.summary.totalStudents,
        totalScores := adv.summary.totalScores,
        averageScore := adv.summary.averageScore,
        reportGeneratedAt := adv.summary.reportGeneratedAt },
    chartData := adv.chartData }

/-- The Redis store for basic reports. -/
abbrev BasicCacheState := List (String × BasicReport)

/-- Serialization of the old DTO for the basic cache key (fields in
declaration order, as the HTTP layer materializes them). -/
def reportFilterStringify (f : ReportFilter) : String :=
  jsonStringifyObj
    ((match f.subjects with
      | some l => [("subjects", JVal.jarrStr l)]
      | none => []) ++
     (match f.format with
      | some s => [("format", JVal.jstr s)]
      | none => []))

/-- `getSubjectStatistics`: the cached backward-compatible entry point;
on a miss it projects the advanced pipeline run with statistics and
comparison disabled. -/
def getSubjectStatistics (db : Db) (filterDto : ReportFilter)
    (st : BasicCacheState) : BasicReport × BasicCacheState :=
  let cacheKey := "subject_statistics_basic_" ++ reportFilterStringify filterDto
  let fullKey := cacheServiceKey (some "analytics") cacheKey
  match st.lookup fullKey with
  | some cached => (cached, st)
  | none =>
    let advancedResult :=
      generateAdvancedStatisticsFromDatabase db (convertReportFilter filterDto)
    let result := toBasicReport advancedResult
    (result, (fullKey, result) :: st)

/-- `calculateLevelStatistics` with the score array threaded through as
mutable program state: the loop only reads the array, so the final state
is the untouched input. -/
def calculateLevelStatisticsMut (scores : List JsVal)
    (aggregationType : AggregationType) :
    EnhancedSubjectLevelStat × List JsVal :=
  (calculateLevelStatistics scores aggregationType, scores)

/-- `calculateStatisticalAnalysis` with the score array threaded through:
the only in-place mutation in the body, `Array.prototype.sort`, is
applied to the spread copy `[...scores]`, so the input array survives
unchanged. -/
def calculateStatisticalAnalysisMut (scores : List ℚ) :
    StatisticalAnalysis × List ℚ :=
  let copy := scores
  let result := calculateStatisticalAnalysis copy
  (result, scores)

/-- Spec-side: the median of an already-sorted list — the middle element,
or the average of the two middle elements when the count is even. -/
def medianOfSorted (s : List ℚ) : ℚ :=
  if s.length % 2 = 0 then
    (s.getD (s.length / 2 - 1) 0 + s.getD (s.length / 2) 0) / 2
  else s.getD (s.length / 2) 0

/-- The highest multiplicity attained by any value of the list. -/
def maxFreq (l : List ℚ) : ℕ := (l.map (fun s => l.count s)).foldr max 0

/-- Spec-side mode: the most frequent value, ties broken by the value
encountered first in the original (non-sorted) order — the first
maximal-count value in first-occurrence order. -/
def modeSpec (l : List ℚ) : ℚ :=
  (((firstOccurrences l).filter (fun s => l.count s = maxFreq l)).headD 0)

/-- Spec-side: the strict projection of an advanced report onto the
basic (backward-compatible) shape — same bucket counts, same
percentages, same summary average/total fields, same chart data;
statistical analysis and comparison omitted. -/
def basicProjectionSpec (adv : AdvancedReport) : BasicReport :=
  { subjects := adv.subjects.map (fun s =>
      { subject := s.subject,
        subjectDisplayName := s.subjectDisplayName,
        statistics :=
          { excellent := s.statistics.excellent, good := s.statistics.good,
            average := s.statistics.average, poor := s.statistics.poor,
            total := s.statistics.total },
        percentages := s.statistics.percentages.getD ⟨0, 0, 0, 0⟩ }),
    summary :=
      { totalStudents := adv.summary.totalStudents,
        totalScores := adv.summary.totalScores,
        averageScore := adv.summary.averageScore,
        reportGeneratedAt := adv.summary.reportGeneratedAt },
    chartData := adv.chartData }

/-- A small concrete environment: two `toan` scores, one `ngu_van`
score. -/
def sampleDb : Db :=
  { studentCount := 3,
    rows := [⟨"toan", 9, "S1", "N1"⟩, ⟨"toan", 7, "S2", "N1"⟩,
             ⟨"ngu_van", 5, "S3", "N1"⟩],
    now := "2024-06-30T00:00:00.000Z" }

/-- An environment with no rows at all. -/
def emptyDb : Db := { studentCount := 0, rows := [], now := "t0" }

/-- A filter sorting by bucket total, everything else defaulted. -/
def tieFilter : AdvancedReportFilter := { sortBy := some SortBy.total_students }

/-- A report whose display name is lexically smallest. -/
def reportTieA : SubjectReport :=
  ⟨"a", "A", ⟨0, 1, 0, 0, 1, none⟩, none, none, 7, none, [7]⟩

/-- A report with the same bucket total but a lexically larger name. -/
def reportTieB : SubjectReport :=
  ⟨"b", "B", ⟨0, 1, 0, 0, 1, none⟩, none, none, 7, none, [7]⟩

/-- A raw filter object: `minScore` inserted before `maxScore`. -/
def objMinMax : FilterObj :=
  [("minScore", JVal.jnum 5), ("maxScore", JVal.jnum 8)]

/-- The same two fields with the opposite insertion order. -/
def objMaxMin : FilterObj :=
  [("maxScore", JVal.jnum 8), ("minScore", JVal.jnum 5)]

/-- A filter requesting two subjects with a cohort-size threshold that,
against `sampleDb`, retains `toan` (2 scores) and drops `ngu_van`
(1 score). -/
def minCountFilter : AdvancedReportFilter :=
  { subjects := some ["toan", "ngu_van"], minStudentCount := some 2,
    includeStatistics := true }

/-! ## Helper lemmas -/

theorem foldl_add_map (f : α → ℚ) :
    ∀ (l : List α) (a : ℚ),
      l.foldl (fun s x => s + f x) a = a + (l.map f).sum := by
  intro l
  induction l with
  | nil => simp
  | cons x xs ih => intro a; simp [ih, add_assoc]

theorem classifyScore_sum (c : BucketCounts) (v : JsVal) :
    (classifyScore c v).excellent + (classifyScore c v).good +
      (classifyScore c v).average + (classifyScore c v).poor =
    c.excellent + c.good + c.average + c.poor +
      (if v.isValidNumber then 1 else 0) := by
  cases v with
  | num q =>
    simp only [classifyScore, JsVal.isValidNumber, if_true]
    split_ifs <;> simp +arith
  | nan => simp [classifyScore, JsVal.isValidNumber]
  | notNumber => simp [classifyScore, JsVal.isValidNumber]

theorem bucketCounts_foldl_sum :
    ∀ (l : List JsVal) (c : BucketCounts),
      (l.foldl classifyScore c).excellent + (l.foldl classifyScore c).good +
        (l.foldl classifyScore c).average + (l.foldl classifyScore c).poor =
      c.excellent + c.good + c.average + c.poor +
        (l.filter JsVal.isValidNumber).length := by
  intro l
  induction l with
  | nil => simp
  | cons x xs ih =>
    intro c
    simp only [List.foldl_cons, ih (classifyScore c x), List.filter_cons]
    rw [classifyScore_sum]
    split_ifs <;> simp +arith

/-! ## C1 — level-bucket totals -/

/-- Claim C1 as stated is false on the code: on `[5, NaN]` the computed
`total` is the raw array length 2, not the valid-entry count 1, and the
bucket counters sum to 1 ≠ `total`. -/
theorem C1_counterexample :
    ¬ ((calculateLevelStatistics [JsVal.num 5, JsVal.nan]
          AggregationType.both).total =
        ([JsVal.num 5, JsVal.nan].filter JsVal.isValidNumber).length ∧
       (calculateLevelStatistics [JsVal.num 5, JsVal.nan]
          AggregationType.both).excellent +
        (calculateLevelStatistics [JsVal.num 5, JsVal.nan]
          AggregationType.both).good +
        (calculateLevelStatistics [JsVal.num 5, JsVal.nan]
          AggregationType.both).average +
        (calculateLevelStatistics [JsVal.num 5, JsVal.nan]
          AggregationType.both).poor =
        (calculateLevelStatistics [JsVal.num 5, JsVal.nan]
          AggregationType.both).total) := by
  decide

/-- C1 amended: `total` is the raw input length, while the four bucket
counters sum to the number of valid numeric entries (so the two agree
exactly when every entry is a valid number). -/
theorem C1_bucket_sums (scores : List JsVal) (agg : AggregationType) :
    (calculateLevelStatistics scores agg).total = scores.length ∧
    (calculateLevelStatistics scores agg).excellent +
      (calculateLevelStatistics scores agg).good +
      (calculateLevelStatistics scores agg).average +
      (calculateLevelStatistics scores agg).poor =
      (scores.filter JsVal.isValidNumber).length := by
  cases scores with
  | nil => exact ⟨rfl, rfl⟩
  | cons x xs =>
    constructor
    · simp [calculateLevelStatistics]
    · simpa [calculateLevelStatistics, bucketCounts] using
        bucketCounts_foldl_sum (x :: xs) ⟨0, 0, 0, 0⟩

/-! ## C7 — empty inputs -/

/-- C7: on the empty score list both computations return their all-zero
structures (totality of the embedding reflects that no exception is
raised). -/
theorem C7_empty_inputs (agg : AggregationType) :
    calculateLevelStatistics [] agg =
      { excellent := 0, good := 0, average := 0, poor := 0, total := 0,
        percentages := some ⟨0, 0, 0, 0⟩ } ∧
    calculateStatisticalAnalysis [] = ⟨0, 0, 0, 0, 0, 0, 0⟩ :=
  ⟨rfl, rfl⟩

/-- Witness for C7 at a concrete aggregation type. -/
theorem C7_empty_inputs_witness :
    calculateLevelStatistics [] AggregationType.both =
      { excellent := 0, good := 0, average := 0, poor := 0, total := 0,
        percentages := some ⟨0, 0, 0, 0⟩ } ∧
    calculateStatisticalAnalysis [] = ⟨0, 0, 0, 0, 0, 0, 0⟩ :=
  C7_empty_inputs AggregationType.both

/-! ## C8 — purity / no mutation -/

/-- C8: both computations leave the score array exactly as it was, and
re-running either on the post-call array reproduces the same output. -/
theorem C8_purity (scores : List JsVal) (qscores : List ℚ)
    (agg : AggregationType) :
    (calculateLevelStatisticsMut scores agg).2 = scores ∧
    (calculateStatisticalAnalysisMut qscores).2 = qscores ∧
    (calculateLevelStatisticsMut
        (calculateLevelStatisticsMut scores agg).2 agg).1 =
      (calculateLevelStatisticsMut scores agg).1 ∧
    (calculateStatisticalAnalysisMut
        (calculateStatisticalAnalysisMut qscores).2).1 =
      (calculateStatisticalAnalysisMut qscores).1 :=
  ⟨rfl, rfl, rfl, rfl⟩

/-! ## C10 — subjects to analyze -/

/-- C10: an absent or empty `subjects` field selects the whole registry;
a nonempty request keeps exactly its registry members, in request order
(a sublist of the request). -/
theorem C10_subjects_selection (x : String) (l : List String) :
    getSubjectsToAnalyze none = SUBJECT_NAMES ∧
    getSubjectsToAnalyze (some []) = SUBJECT_NAMES ∧
    getSubjectsToAnalyze (some (x :: l)) =
      (x :: l).filter (fun s => SUBJECT_NAMES.contains s) ∧
    (∀ s, s ∈ getSubjectsToAnalyze (some (x :: l)) ↔
        s ∈ x :: l ∧ s ∈ SUBJECT_NAMES) ∧
    (getSubjectsToAnalyze (some (x :: l))).Sublist (x :: l) := by
  refine ⟨rfl, rfl, rfl, ?_, ?_⟩
  · intro s
    simp [getSubjectsToAnalyze, List.mem_filter]
  · simp [getSubjectsToAnalyze]

theorem foldl_add_eq_sum (l : List ℚ) (a : ℚ) :
    l.foldl (· + ·) a = a + l.sum := by
  simpa using foldl_add_map (fun q => q) l a

theorem mem_firstOccurrences_foldl :
    ∀ (l acc : List ℚ) (y : ℚ),
      (y ∈ l.foldl (fun acc s => if s ∈ acc then acc else acc ++ [s]) acc) ↔
        y ∈ acc ∨ y ∈ l := by
  intro l
  induction l with
  | nil => simp
  | cons x xs ih =>
    intro acc y
    simp only [List.foldl_cons, ih, List.mem_cons]
    constructor
    · rintro (h | h)
      · split_ifs at h with hx
        · exact Or.inl h
        · rcases List.mem_append.mp h with h | h
          · exact Or.inl h
          · simp at h
            exact Or.inr (Or.inl h)
      · exact Or.inr (Or.inr h)
    · rintro (h | h | h)
      · left
        split_ifs with hx
        · exact h
        · exact List.mem_append.mpr (Or.inl h)
      · left
        split_ifs with hx
        · exact h ▸ hx
        · simp [h]
      · exact Or.inr h

theorem mem_firstOccurrences {l : List ℚ} {y : ℚ} :
    y ∈ firstOccurrences l ↔ y ∈ l := by
  unfold firstOccurrences
  rw [mem_firstOccurrences_foldl]
  simp

theorem le_foldr_max : ∀ (L : List ℕ) (x : ℕ), x ∈ L → x ≤ L.foldr max 0 := by
  intro L
  induction L with
  | nil => simp
  | cons a L ih =>
    intro x hx
    rcases List.mem_cons.mp hx with h | h
    · simp [h]
    · exact (ih x h).trans (le_max_right a (L.foldr max 0))

theorem foldr_max_le : ∀ (L : List ℕ) (k : ℕ),
    (∀ x ∈ L, x ≤ k) → L.foldr max 0 ≤ k := by
  intro L
  induction L with
  | nil => simp
  | cons a L ih =>
    intro k h
    simp only [List.foldr_cons, max_le_iff]
    exact ⟨h a (by simp), ih k (fun x hx => h x (by simp [hx]))⟩

theorem maxScanDecomp (c : ℚ → ℕ) :
    ∀ (F : List ℚ) (m₀ : ℚ) (f₀ : ℕ),
      ((∀ s ∈ F, c s ≤ f₀) ∧
        F.foldl (fun p s => if p.2 < c s then (s, c s) else p) (m₀, f₀) =
          (m₀, f₀)) ∨
      ∃ F₁ m F₂, F = F₁ ++ m :: F₂ ∧
        F.foldl (fun p s => if p.2 < c s then (s, c s) else p) (m₀, f₀) =
          (m, c m) ∧
        f₀ < c m ∧ (∀ s ∈ F₁, c s < c m) ∧ (∀ s ∈ F₂, c s ≤ c m) := by
  intro F
  induction F with
  | nil => intro m₀ f₀; left; simp
  | cons x F ih =>
    intro m₀ f₀
    simp only [List.foldl_cons]
    by_cases hx : f₀ < c x
    · rw [if_pos hx]
      rcases ih x (c x) with ⟨hall, heq⟩ | ⟨F₁, m, F₂, hF, heq, hlt, h₁, h₂⟩
      · right
        exact ⟨[], x, F, by simp, heq, hx, by simp, hall⟩
      · right
        refine ⟨x :: F₁, m, F₂, by simp [hF], heq, hx.trans hlt, ?_, h₂⟩
        intro s hs
        rcases List.mem_cons.mp hs with h | h
        · exact h ▸ hlt
        · exact h₁ s h
    · rw [if_neg hx]
      push_neg at hx
      rcases ih m₀ f₀ with ⟨hall, heq⟩ | ⟨F₁, m, F₂, hF, heq, hlt, h₁, h₂⟩
      · left
        refine ⟨?_, heq⟩
        intro s hs
        rcases List.mem_cons.mp hs with h | h
        · exact h ▸ hx
        · exact hall s h
      · right
        refine ⟨x :: F₁, m, F₂, by simp [hF], heq, hlt, ?_, h₂⟩
        intro s hs
        rcases List.mem_cons.mp hs with h | h
        · exact h ▸ (hx.trans_lt hlt)
        · exact h₁ s h

theorem modeOf_eq_modeSpec (x : ℚ) (xs : List ℚ) :
    modeOf (x :: xs) = modeSpec (x :: xs) ∧
    modeSpec (x :: xs) ∈ x :: xs ∧
    (x :: xs).count (modeSpec (x :: xs)) = maxFreq (x :: xs) := by
  set l := x :: xs with hl
  have hcx : 0 < l.count x := by
    rw [hl]
    simp [List.count_cons_self]
  rcases maxScanDecomp (fun s => l.count s) (firstOccurrences l)
      (l.headD 0) 0 with ⟨hall, _⟩ | ⟨F₁, m, F₂, hF, heq, _, h₁, h₂⟩
  · exfalso
    have hxF : x ∈ firstOccurrences l := mem_firstOccurrences.mpr (by simp [hl])
    exact absurd (hall x hxF) (by omega)
  · have hmF : m ∈ firstOccurrences l := by
      rw [hF]; exact List.mem_append.mpr (Or.inr (by simp))
    have hml : m ∈ l := mem_firstOccurrences.mp hmF
    have hmax : maxFreq l = l.count m := by
      apply le_antisymm
      · apply foldr_max_le
        intro v hv
        rcases List.mem_map.mp hv with ⟨y, hy, rfl⟩
        have hyF : y ∈ firstOccurrences l := mem_firstOccurrences.mpr hy
        rw [hF] at hyF
        rcases List.mem_append.mp hyF with h | h
        · exact (h₁ y h).le
        · rcases List.mem_cons.mp h with h | h
          · exact h ▸ le_rfl
          · exact h₂ y h
      · exact le_foldr_max _ _ (List.mem_map.mpr ⟨m, hml, rfl⟩)
    have hmode : modeOf l = m := by
      unfold modeOf
      rw [heq]
    have hspec : modeSpec l = m := by
      unfold modeSpec
      rw [hF, List.filter_append]
      have hF₁ : F₁.filter (fun s => decide (l.count s = maxFreq l)) = [] := by
        rw [List.filter_eq_nil_iff]
        intro s hs
        simp only [decide_eq_true_eq]
        exact fun h => absurd (h ▸ hmax.symm ▸ (h₁ s hs)) (by omega)
      rw [hF₁, List.filter_cons]
      simp [hmax]
    exact ⟨hmode.trans hspec.symm, hspec ▸ hml, by rw [hspec, hmax]⟩

theorem calcStats_cons_eq (x : ℚ) (xs : List ℚ) :
    calculateStatisticalAnalysis (x :: xs) =
      { mean := round2 ((x :: xs).sum / ((x :: xs).length : ℚ)),
        median := round2 (medianOfSorted ((x :: xs).insertionSort (· ≤ ·))),
        mode := round2 (modeOf (x :: xs)),
        standardDeviation :=
          jsSqrtRound100 (((x :: xs).map
            (fun q => (q - (x :: xs).sum / ((x :: xs).length : ℚ)) ^ 2)).sum /
            ((x :: xs).length : ℚ)),
        variance :=
          round2 (((x :: xs).map
            (fun q => (q - (x :: xs).sum / ((x :: xs).length : ℚ)) ^ 2)).sum /
            ((x :: xs).length : ℚ)),
        max := (x :: xs).foldl max x,
        min := (x :: xs).foldl min x } := by
  unfold calculateStatisticalAnalysis medianOfSorted
  rw [if_neg (by simp)]
  simp only [List.headD_cons, foldl_add_eq_sum, foldl_add_map, zero_add]

theorem rsf30000 : ratSqrtFloor 30000 = 173 := by
  rw [ratSqrtFloor]
  have key : ∀ n d : ℕ, n = 30000 → d = 1 → Nat.sqrt n / d = 173 := by
    rintro n d rfl rfl
    norm_num
  exact key _ _ rfl rfl

theorem jsSqrt34 : jsSqrtRound100 (3 / 4) = 87 / 100 := by
  rw [jsSqrtRound100, show (40000 * (3 / 4) : ℚ) = 30000 by norm_num, rsf30000]
  norm_num

theorem scenario_8886 :
    calculateStatisticalAnalysis [8, 8, 8, 6] =
      ⟨15 / 2, 8, 8, 87 / 100, 3 / 4, 8, 6⟩ := by
  have hsort : ([8, 8, 8, 6] : List ℚ).insertionSort (· ≤ ·) = [6, 8, 8, 8] := by
    decide
  have hmode : modeOf [8, 8, 8, 6] = 8 := by decide
  have hmax : ([8, 8, 8, 6] : List ℚ).foldl max 8 = 8 := by decide
  have hmin : ([8, 8, 8, 6] : List ℚ).foldl min 8 = 6 := by decide
  have hvar : ((([8, 8, 8, 6] : List ℚ).map
      (fun q => (q - ([8, 8, 8, 6] : List ℚ).sum /
        (([8, 8, 8, 6] : List ℚ).length : ℚ)) ^ 2)).sum /
      (([8, 8, 8, 6] : List ℚ).length : ℚ)) = 3 / 4 := by norm_num
  have hsum : (([8, 8, 8, 6] : List ℚ).sum /
      (([8, 8, 8, 6] : List ℚ).length : ℚ)) = 15 / 2 := by norm_num
  have hmed : medianOfSorted [6, 8, 8, 8] = 8 := by norm_num [medianOfSorted]
  rw [calcStats_cons_eq, hsort, hmode, hmax, hmin, hvar, hsum, hmed, jsSqrt34]
  norm_num [round2, jsRound]

/-- Claim C4: descriptive statistics — two-decimal-rounded mean, median
of a sorted copy, most-frequent mode with first-encountered tie-break,
population variance, standard deviation as the rounded square root of
the unrounded variance, and the `[8, 8, 8, 6]` scenario. -/
theorem C4_descriptive_stats (x : ℚ) (xs : List ℚ) :
    (calculateStatisticalAnalysis (x :: xs)).mean =
      round2 ((x :: xs).sum / ((x :: xs).length : ℚ)) ∧
    (calculateStatisticalAnalysis (x :: xs)).median =
      round2 (medianOfSorted
        ((x :: xs).mergeSort (fun a b => decide (a ≤ b)))) ∧
    (calculateStatisticalAnalysis (x :: xs)).mode =
      round2 (modeSpec (x :: xs)) ∧
    modeSpec (x :: xs) ∈ x :: xs ∧
    (x :: xs).count (modeSpec (x :: xs)) = maxFreq (x :: xs) ∧
    (calculateStatisticalAnalysis (x :: xs)).variance =
      round2 (((x :: xs).map
        (fun q => (q - (x :: xs).sum / ((x :: xs).length : ℚ)) ^ 2)).sum /
        ((x :: xs).length : ℚ)) ∧
    (calculateStatisticalAnalysis (x :: xs)).standardDeviation =
      jsSqrtRound100 (((x :: xs).map
        (fun q => (q - (x :: xs).sum / ((x :: xs).length : ℚ)) ^ 2)).sum /
        ((x :: xs).length : ℚ)) ∧
    calculateStatisticalAnalysis [8, 8, 8, 6] =
      ⟨15 / 2, 8, 8, 87 / 100, 3 / 4, 8, 6⟩ := by
  obtain ⟨hmode, hmem, hcount⟩ := modeOf_eq_modeSpec x xs
  rw [calcStats_cons_eq]
  refine ⟨rfl, ?_, by rw [hmode], hmem, hcount, rfl, rfl, ?_⟩
  · rw [List.mergeSort_eq_insertionSort (· ≤ ·) (x :: xs)]
  · exact scenario_8886

theorem cmpChars_neg : ∀ (s t : List Char), cmpChars t s = -cmpChars s t := by
  intro s
  induction s with
  | nil => intro t; cases t <;> simp [cmpChars]
  | cons a s ih =>
    intro t
    cases t with
    | nil => simp [cmpChars]
    | cons b t =>
      simp only [cmpChars]
      split_ifs <;> first | exact ih t | omega

theorem cmpChars_trans :
    ∀ (s t u : List Char), cmpChars s t ≤ 0 → cmpChars t u ≤ 0 →
      cmpChars s u ≤ 0 := by
  intro s
  induction s with
  | nil => intro t u _ _; cases u <;> simp [cmpChars]
  | cons a s ih =>
    intro t u h1 h2
    cases t with
    | nil => simp [cmpChars] at h1
    | cons b t =>
      cases u with
      | nil => simp [cmpChars] at h2
      | cons c u =>
        simp only [cmpChars] at h1 h2 ⊢
        by_cases hab : a.toNat < b.toNat
        · by_cases hbc : b.toNat < c.toNat
          · rw [if_pos (show a.toNat < c.toNat by omega)]
            norm_num
          · rw [if_neg hbc] at h2
            by_cases hcb : c.toNat < b.toNat
            · rw [if_pos hcb] at h2
              norm_num at h2
            · rw [if_pos (show a.toNat < c.toNat by omega)]
              norm_num
        · rw [if_neg hab] at h1
          by_cases hba : b.toNat < a.toNat
          · rw [if_pos hba] at h1
            norm_num at h1
          · rw [if_neg hba] at h1
            by_cases hbc : b.toNat < c.toNat
            · rw [if_pos (show a.toNat < c.toNat by omega)]
              norm_num
            · rw [if_neg hbc] at h2
              by_cases hcb : c.toNat < b.toNat
              · rw [if_pos hcb] at h2
                norm_num at h2
              · rw [if_neg hcb] at h2
                rw [if_neg (show ¬ a.toNat < c.toNat by omega),
                  if_neg (show ¬ c.toNat < a.toNat by omega)]
                exact ih t u h1 h2

theorem cmpKey_neg (f : AdvancedReportFilter) (a b : SubjectReport) :
    cmpKey f b a = -cmpKey f a b := by
  unfold cmpKey localeCompare
  rcases f.sortBy with _ | sb
  · rw [cmpChars_neg]
    push_cast
    ring
  · cases sb
    · rw [cmpChars_neg]
      push_cast
      ring
    · ring
    · ring
    · ring

theorem cmpKey_trans (f : AdvancedReportFilter) (a b c : SubjectReport) :
    cmpKey f a b ≤ 0 → cmpKey f b c ≤ 0 → cmpKey f a c ≤ 0 := by
  unfold cmpKey localeCompare
  rcases f.sortBy with _ | sb
  · dsimp only
    intro h1 h2
    exact_mod_cast
      cmpChars_trans _ _ _ (by exact_mod_cast h1) (by exact_mod_cast h2)
  · cases sb <;> dsimp only
    · intro h1 h2
      exact_mod_cast
        cmpChars_trans _ _ _ (by exact_mod_cast h1) (by exact_mod_cast h2)
    · intro h1 h2
      linarith
    · intro h1 h2
      linarith
    · intro h1 h2
      linarith

theorem cmpReports_neg (f : AdvancedReportFilter) (a b : SubjectReport) :
    cmpReports f b a = -cmpReports f a b := by
  unfold cmpReports
  rw [cmpKey_neg]
  split_ifs <;> ring

theorem cmpReports_trans (f : AdvancedReportFilter) (a b c : SubjectReport)
    (h1 : cmpReports f a b ≤ 0) (h2 : cmpReports f b c ≤ 0) :
    cmpReports f a c ≤ 0 := by
  unfold cmpReports at h1 h2 ⊢
  split_ifs at h1 h2 ⊢ with hd
  · rw [neg_nonpos] at h1 h2 ⊢
    have hba : cmpKey f b a ≤ 0 := by rw [cmpKey_neg]; linarith
    have hcb : cmpKey f c b ≤ 0 := by rw [cmpKey_neg]; linarith
    have := cmpKey_trans f c b a hcb hba
    rw [cmpKey_neg] at this
    linarith
  · exact cmpKey_trans f a b c h1 h2

theorem cmpReports_total (f : AdvancedReportFilter) (a b : SubjectReport) :
    cmpReports f a b ≤ 0 ∨ cmpReports f b a ≤ 0 := by
  rcases le_total (cmpReports f a b) 0 with h | h
  · exact Or.inl h
  · right
    rw [cmpReports_neg]
    linarith

/-! ## C3 — report sorting -/

/-- Claim C3 as stated is false on the code: under the numeric key
`total_students`, two reports with equal totals stay in input order
(stable sort) even when the lexical order of their display names would
swap them. -/
theorem C3_counterexample :
    tieFilter.sortBy = some SortBy.total_students ∧
    tieFilter.sortOrder = none ∧
    reportTieB.statistics.total = reportTieA.statistics.total ∧
    localeCompare reportTieA.subjectDisplayName
      reportTieB.subjectDisplayName < 0 ∧
    sortResults [reportTieB, reportTieA] tieFilter =
      [reportTieB, reportTieA] ∧
    [reportTieB, reportTieA] ≠ [reportTieA, reportTieB] := by
  refine ⟨rfl, rfl, rfl, by decide, ?_, by decide⟩
  have hc : cmpReports tieFilter reportTieB reportTieA ≤ 0 := by
    norm_num [cmpReports, cmpKey, tieFilter, reportTieB, reportTieA]
  simp only [sortResults, List.insertionSort, List.orderedInsert]
  rw [if_pos hc]

/-- C3 amended: `sortResults` sorts by the selected key (display-name
compare for `subject_name`, absent, or unrecognized keys; numeric
difference for the other three), `sortOrder = DESC` negating the
comparator — and ties keep their original input order (stability: any
comparator-sorted subsequence of the input survives), rather than being
re-broken lexically. -/
theorem C3_sort_contract (results : List SubjectReport)
    (f : AdvancedReportFilter) :
    (sortResults results f).Perm results ∧
    (sortResults results f).Pairwise (fun a b => cmpReports f a b ≤ 0) ∧
    ∀ c : List SubjectReport,
      c.Pairwise (fun a b => cmpReports f a b ≤ 0) →
      c.Sublist results → c.Sublist (sortResults results f) := by
  haveI htot : IsTotal SubjectReport (fun a b => cmpReports f a b ≤ 0) :=
    ⟨fun a b => cmpReports_total f a b⟩
  haveI htr : IsTrans SubjectReport (fun a b => cmpReports f a b ≤ 0) :=
    ⟨fun a b c => cmpReports_trans f a b c⟩
  refine ⟨List.perm_insertionSort _ results, ?_, ?_⟩
  · exact List.sorted_insertionSort _ results
  · intro c hc hsub
    exact List.sublist_insertionSort hc hsub

theorem calculateComparison_ranking (db : Db) (subject : String)
    (scores : List ℚ) :
    (calculateComparison db subject scores).ranking =
      { position :=
          jsFindIndex (fun s => s.1 == subject) (rankedSubjectAverages db) + 1,
        totalSubjects := (rankedSubjectAverages db).length,
        percentile := jsRound
          ((((rankedSubjectAverages db).length : ℚ) -
            ((jsFindIndex (fun s => s.1 == subject)
              (rankedSubjectAverages db) + 1 : ℤ) : ℚ) + 1) /
            ((rankedSubjectAverages db).length : ℚ) * 100) } := rfl

/-! ## C6 — ranking and percentile -/

/-- Claim C6: `calculateComparison` ranks the registry's unfiltered
subject averages in descending order, positions the subject 1-based, and
sets `percentile = round((N − position + 1) / N × 100)` with `N = 9`; in
particular position 1 gives percentile 100 and position 9 gives
`round(100/9) = 11`. -/
theorem C6_comparison_ranking (db : Db) (subject : String)
    (scores : List ℚ) (h : subject ∈ SUBJECT_NAMES) :
    (calculateComparison db subject scores).ranking.totalSubjects = 9 ∧
    1 ≤ (calculateComparison db subject scores).ranking.position ∧
    (calculateComparison db subject scores).ranking.position ≤ 9 ∧
    (calculateComparison db subject scores).ranking.percentile =
      jsRound ((9 -
        (((calculateComparison db subject scores).ranking.position : ℤ) : ℚ)
        + 1) / 9 * 100) ∧
    ((calculateComparison db subject scores).ranking.position = 1 →
      (calculateComparison db subject scores).ranking.percentile = 100) ∧
    ((calculateComparison db subject scores).ranking.position = 9 →
      (calculateComparison db subject scores).ranking.percentile =
        jsRound ((100 : ℚ) / 9)) ∧
    jsRound ((100 : ℚ) / 9) = 11 ∧
    (rankedSubjectAverages db).Pairwise (fun x y => y.2 ≤ x.2) ∧
    (rankedSubjectAverages db).Perm
      (SUBJECT_NAMES.map (fun s => (s, avgOrZero (allScoresFor db s)))) := by
  have hlen : (rankedSubjectAverages db).length = 9 := by
    unfold rankedSubjectAverages
    rw [List.length_insertionSort, List.length_map]
    rfl
  have hmem : (subject, avgOrZero (allScoresFor db subject)) ∈
      rankedSubjectAverages db := by
    unfold rankedSubjectAverages
    exact (List.perm_insertionSort _ _).mem_iff.mpr
      (List.mem_map.mpr ⟨subject, h, rfl⟩)
  have hex : ∃ x ∈ rankedSubjectAverages db, (x.1 == subject) = true :=
    ⟨_, hmem, by simp⟩
  have hidx := List.findIdx?_eq_some_of_exists hex
  have hlt := List.findIdx_lt_length_of_exists hex
  rw [hlen] at hlt
  have hfi : jsFindIndex (fun s => s.1 == subject) (rankedSubjectAverages db)
      = (List.findIdx (fun s => s.1 == subject)
          (rankedSubjectAverages db) : ℤ) := by
    unfold jsFindIndex
    rw [hidx]
  have htot : (calculateComparison db subject scores).ranking.totalSubjects
      = 9 := by
    simp only [calculateComparison_ranking, hlen]
  have hpos : (calculateComparison db subject scores).ranking.position =
      (List.findIdx (fun s => s.1 == subject)
        (rankedSubjectAverages db) : ℤ) + 1 := by
    simp only [calculateComparison_ranking, hfi]
  have hper : (calculateComparison db subject scores).ranking.percentile =
      jsRound ((((9 : ℕ) : ℚ) -
        (((List.findIdx (fun s => s.1 == subject)
            (rankedSubjectAverages db) : ℤ) + 1 : ℤ) : ℚ) + 1) /
        ((9 : ℕ) : ℚ) * 100) := by
    simp only [calculateComparison_ranking, hfi, hlen]
  generalize hg : List.findIdx (fun s => s.1 == subject)
    (rankedSubjectAverages db) = i at hpos hper hlt
  refine ⟨htot, by rw [hpos]; omega, by rw [hpos]; omega, ?_, ?_, ?_, ?_,
    ?_, ?_⟩
  · rw [hper, hpos]
    congr 1
  · intro hp
    rw [hpos] at hp
    have h0 : i = 0 := by omega
    rw [h0] at hper
    rw [hper]
    norm_num [jsRound]
  · intro hp
    rw [hpos] at hp
    have h8 : i = 8 := by omega
    rw [h8] at hper
    rw [hper]
    congr 1
    push_cast
    norm_num
  · norm_num [jsRound]
  · haveI : IsTotal (String × ℚ) (fun x y => y.2 ≤ x.2) :=
      ⟨fun x y => le_total y.2 x.2⟩
    haveI : IsTrans (String × ℚ) (fun x y => y.2 ≤ x.2) :=
      ⟨fun x y z h1 h2 => le_trans h2 h1⟩
    exact List.sorted_insertionSort _ _
  · exact List.perm_insertionSort _ _

/-- Witness for C6 at a concrete environment and a registry subject. -/
theorem C6_comparison_ranking_witness :
    ("toan" ∈ SUBJECT_NAMES) ∧
    ((calculateComparison sampleDb "toan" [9]).ranking.totalSubjects = 9 ∧
     1 ≤ (calculateComparison sampleDb "toan" [9]).ranking.position ∧
     (calculateComparison sampleDb "toan" [9]).ranking.position ≤ 9 ∧
     (calculateComparison sampleDb "toan" [9]).ranking.percentile =
       jsRound ((9 -
         (((calculateComparison sampleDb "toan" [9]).ranking.position : ℤ) : ℚ)
         + 1) / 9 * 100) ∧
     ((calculateComparison sampleDb "toan" [9]).ranking.position = 1 →
       (calculateComparison sampleDb "toan" [9]).ranking.percentile = 100) ∧
     ((calculateComparison sampleDb "toan" [9]).ranking.position = 9 →
       (calculateComparison sampleDb "toan" [9]).ranking.percentile =
         jsRound ((100 : ℚ) / 9)) ∧
     jsRound ((100 : ℚ) / 9) = 11 ∧
     (rankedSubjectAverages sampleDb).Pairwise (fun x y => y.2 ≤ x.2) ∧
     (rankedSubjectAverages sampleDb).Perm
       (SUBJECT_NAMES.map
         (fun s => (s, avgOrZero (allScoresFor sampleDb s))))) :=
  ⟨by decide, C6_comparison_ranking sampleDb "toan" [9] (by decide)⟩

theorem processSubjects_go (db : Db) (f : AdvancedReportFilter) :
    ∀ (subs : List String) (acc : List SubjectReport × List ℚ),
      subs.foldl
        (fun acc subject =>
          let subjectData := analyzeSubjectSafe db f subject
          if minCountOk f subjectData.statistics.total then
            (acc.1 ++ [subjectData], acc.2 ++ subjectData.scores)
          else acc) acc =
      (acc.1 ++ ((subs.map (analyzeSubjectSafe db f)).filter
          (fun r => minCountOk f r.statistics.total)),
       acc.2 ++ (((subs.map (analyzeSubjectSafe db f)).filter
          (fun r => minCountOk f r.statistics.total)).map
            (fun r => r.scores)).flatten) := by
  intro subs
  induction subs with
  | nil => intro acc; simp
  | cons s subs ih =>
    intro acc
    simp only [List.foldl_cons, List.map_cons, List.filter_cons]
    by_cases hs : minCountOk f (analyzeSubjectSafe db f s).statistics.total
    · rw [if_pos hs, ih, if_pos hs]
      simp
    · rw [if_neg hs, ih, if_neg hs]

theorem processSubjects_eq (db : Db) (f : AdvancedReportFilter) :
    processSubjects db f =
      (((getSubjectsToAnalyze f.subjects).map
          (analyzeSubjectSafe db f)).filter
        (fun r => minCountOk f r.statistics.total),
       ((((getSubjectsToAnalyze f.subjects).map
            (analyzeSubjectSafe db f)).filter
          (fun r => minCountOk f r.statistics.total)).map
            (fun r => r.scores)).flatten) := by
  unfold processSubjects
  rw [processSubjects_go]
  simp

theorem generate_eq (db : Db) (f : AdvancedReportFilter) :
    generateAdvancedStatisticsFromDatabase db f =
      { subjects := sortResults (processSubjects db f).1 f,
        summary :=
          buildAdvancedSummary db f (sortResults (processSubjects db f).1 f),
        chartData := generateChartData (sortResults (processSubjects db f).1 f),
        overallStatistics :=
          if f.includeStatistics ∧ 0 < (processSubjects db f).2.length then
            some (calculateStatisticalAnalysis (processSubjects db f).2)
          else none,
        metadata :=
          { cacheUsed := false, queryOptimized := true,
            dataSource := "postgresql", processingTimeMs := 0,
            cacheHit := none, cacheStore := none, version := "v2-advanced",
            filtersApplied := none, cacheTtl := none } } := rfl

/-! ## C5 — minStudentCount post-filter -/

/-- Claim C5: with `minStudentCount = k ≥ 1`, the report retains exactly
the analyzed subjects whose bucket total reaches `k`, and the pooled
score list feeding the optional overall statistics is exactly the
concatenation of the retained subjects' score lists — a dropped subject
contributes nothing. -/
theorem C5_min_student_count (db : Db) (f : AdvancedReportFilter) (k : ℕ)
    (hk : f.minStudentCount = some k) (h1 : 1 ≤ k) :
    (generateAdvancedStatisticsFromDatabase db f).subjects.Perm
      (((getSubjectsToAnalyze f.subjects).map
          (analyzeSubjectSafe db f)).filter
        (fun r => decide (k ≤ r.statistics.total))) ∧
    (∀ r ∈ (generateAdvancedStatisticsFromDatabase db f).subjects,
      k ≤ r.statistics.total) ∧
    (generateAdvancedStatisticsFromDatabase db f).overallStatistics =
      (if f.includeStatistics ∧
          0 < (((((getSubjectsToAnalyze f.subjects).map
              (analyzeSubjectSafe db f)).filter
            (fun r => decide (k ≤ r.statistics.total))).map
              (fun r => r.scores)).flatten).length then
        some (calculateStatisticalAnalysis
          (((((getSubjectsToAnalyze f.subjects).map
              (analyzeSubjectSafe db f)).filter
            (fun r => decide (k ≤ r.statistics.total))).map
              (fun r => r.scores)).flatten))
      else none) := by
  have hmc : ∀ t, minCountOk f t = decide (k ≤ t) := by
    intro t
    unfold minCountOk
    rw [hk]
    have hz : (k == 0) = false := by
      simp only [beq_eq_false_iff_ne, ne_eq]
      omega
    dsimp only
    rw [hz, Bool.false_or]
  have hfe : ∀ (l : List SubjectReport),
      l.filter (fun r => minCountOk f r.statistics.total) =
      l.filter (fun r => decide (k ≤ r.statistics.total)) := by
    intro l
    exact List.filter_congr (fun x _ => hmc x.statistics.total)
  have hps : processSubjects db f =
      (((getSubjectsToAnalyze f.subjects).map
          (analyzeSubjectSafe db f)).filter
        (fun r => decide (k ≤ r.statistics.total)),
       ((((getSubjectsToAnalyze f.subjects).map
            (analyzeSubjectSafe db f)).filter
          (fun r => decide (k ≤ r.statistics.total))).map
            (fun r => r.scores)).flatten) := by
    rw [processSubjects_eq, hfe]
  refine ⟨?_, ?_, ?_⟩
  · simp only [generate_eq, hps]
    exact List.perm_insertionSort _ _
  · intro r hr
    simp only [generate_eq, hps] at hr
    have hr2 : r ∈ ((getSubjectsToAnalyze f.subjects).map
        (analyzeSubjectSafe db f)).filter
          (fun r => decide (k ≤ r.statistics.total)) :=
      (List.perm_insertionSort _ _).mem_iff.mp hr
    have := List.of_mem_filter hr2
    exact of_decide_eq_true this
  · simp only [generate_eq, hps]

/-- Witness for C5 at a concrete environment: `toan` (2 rows) is kept,
`ngu_van` (1 row) is dropped by `minStudentCount = 2`. -/
theorem C5_min_student_count_witness :
    (minCountFilter.minStudentCount = some 2 ∧ 1 ≤ 2) ∧
    ((generateAdvancedStatisticsFromDatabase sampleDb
        minCountFilter).subjects.Perm
      (((getSubjectsToAnalyze minCountFilter.subjects).map
          (analyzeSubjectSafe sampleDb minCountFilter)).filter
        (fun r => decide (2 ≤ r.statistics.total))) ∧
     (∀ r ∈ (generateAdvancedStatisticsFromDatabase sampleDb
        minCountFilter).subjects, 2 ≤ r.statistics.total) ∧
     (generateAdvancedStatisticsFromDatabase sampleDb
        minCountFilter).overallStatistics =
      (if minCountFilter.includeStatistics ∧
          0 < (((((getSubjectsToAnalyze minCountFilter.subjects).map
              (analyzeSubjectSafe sampleDb minCountFilter)).filter
            (fun r => decide (2 ≤ r.statistics.total))).map
              (fun r => r.scores)).flatten).length then
        some (calculateStatisticalAnalysis
          (((((getSubjectsToAnalyze minCountFilter.subjects).map
              (analyzeSubjectSafe sampleDb minCountFilter)).filter
            (fun r => decide (2 ≤ r.statistics.total))).map
              (fun r => r.scores)).flatten))
      else none)) :=
  ⟨⟨rfl, by omega⟩,
   C5_min_student_count sampleDb minCountFilter 2 rfl (by omega)⟩

/-! ## C2 — cache keys and the cache round trip -/

/-- Claim C2 as stated is false on the code: the cache key is built with
`JSON.stringify` of the raw filter object, which serializes fields in
insertion order.  Two objects carrying the same two fields with the same
values in opposite insertion orders denote the same typed filter yet get
different cache keys, and a second call made with the re-ordered object
is a cache miss (`cacheHit = false`), not a hit. -/
theorem C2_counterexample :
    semFilter objMinMax = semFilter objMaxMin ∧
    objMinMax.Perm objMaxMin ∧
    advancedCacheKey objMinMax ≠ advancedCacheKey objMaxMin ∧
    (getAdvancedSubjectStatistics emptyDb objMaxMin
        (getAdvancedSubjectStatistics emptyDb objMinMax
          []).2).1.metadata.cacheHit = some false := by
  refine ⟨by decide, by decide, by decide, ?_⟩
  have hne : (cacheServiceKey (some "analytics") (advancedCacheKey objMaxMin)
      == cacheServiceKey (some "analytics")
        (advancedCacheKey objMinMax)) = false := by decide
  have hget1 : advCacheGet [] (advancedCacheKey objMinMax) = none := rfl
  simp only [getAdvancedSubjectStatistics, hget1, advCacheSet, advCacheGet,
    List.lookup, hne]

/-- C2 amended: the key is `JSON.stringify` of the filter object in
insertion order (not canonical); calling the entry point twice with the
very same object (same fields in the same insertion order) returns equal
report bodies — subjects, summary, chart data, overall statistics — and
the second call reports `cacheHit = true` without changing the store. -/
theorem C2_cache_round_trip (db : Db) (obj : FilterObj) :
    (getAdvancedSubjectStatistics db obj
        (getAdvancedSubjectStatistics db obj []).2).1.metadata.cacheHit =
      some true ∧
    (getAdvancedSubjectStatistics db obj
        (getAdvancedSubjectStatistics db obj []).2).1.subjects =
      (getAdvancedSubjectStatistics db obj []).1.subjects ∧
    (getAdvancedSubjectStatistics db obj
        (getAdvancedSubjectStatistics db obj []).2).1.summary =
      (getAdvancedSubjectStatistics db obj []).1.summary ∧
    (getAdvancedSubjectStatistics db obj
        (getAdvancedSubjectStatistics db obj []).2).1.chartData =
      (getAdvancedSubjectStatistics db obj []).1.chartData ∧
    (getAdvancedSubjectStatistics db obj
        (getAdvancedSubjectStatistics db obj []).2).1.overallStatistics =
      (getAdvancedSubjectStatistics db obj []).1.overallStatistics ∧
    (getAdvancedSubjectStatistics db obj
        (getAdvancedSubjectStatistics db obj []).2).2 =
      (getAdvancedSubjectStatistics db obj []).2 := by
  have hget1 : advCacheGet [] (advancedCacheKey obj) = none := rfl
  simp only [getAdvancedSubjectStatistics, hget1, advCacheSet, advCacheGet,
    List.lookup, beq_self_eq_true]
  exact ⟨trivial, trivial, trivial, trivial, trivial, trivial⟩

theorem analyzeSubjectSafe_eq (db : Db) (f : AdvancedReportFilter)
    (subject : String) :
    analyzeSubjectSafe db f subject =
      { subject := subject,
        subjectDisplayName := displayName subject,
        statistics := calculateLevelStatistics
          ((getFilteredScores db f subject).map JsVal.num)
          (f.aggregationType.getD AggregationType.both),
        statisticalAnalysis :=
          if f.includeStatistics ∧
              0 < (getFilteredScores db f subject).length then
            some (calculateStatisticalAnalysis (getFilteredScores db f subject))
          else none,
        comparison :=
          if f.includeComparison ∧
              0 < (getFilteredScores db f subject).length then
            some (calculateComparison db subject (getFilteredScores db f subject))
          else none,
        averageScore :=
          if 0 < (getFilteredScores db f subject).length then
            round2 ((getFilteredScores db f subject).foldl (· + ·) 0 /
              ((getFilteredScores db f subject).length : ℚ))
          else 0,
        topPerformers :=
          if 0 < (getFilteredScores db f subject).length then
            some (getTopPerformersForSubject db subject 3)
          else none,
        scores := getFilteredScores db f subject } := rfl

theorem calculateLevelStatistics_both_percentages (scores : List JsVal) :
    (calculateLevelStatistics scores
      AggregationType.both).percentages.isSome = true := by
  cases scores with
  | nil => rfl
  | cons x xs =>
    unfold calculateLevelStatistics
    rw [if_neg (by simp)]
    dsimp only
    rw [if_pos (Or.inr rfl), if_pos (by simp)]
    rfl

/-! ## C9 — basic statistics as a projection of the advanced pipeline -/

/-- Claim C9: on a fresh cache, the basic entry point returns exactly the
spec's strict projection of the advanced report computed with statistics
and comparison disabled; in that report the overall statistics and every
per-subject analysis/comparison are omitted, and every subject carries
its percentages block (so the projection loses nothing). -/
theorem C9_basic_projection (db : Db) (bf : ReportFilter) :
    (getSubjectStatistics db bf []).1 =
      basicProjectionSpec
        (generateAdvancedStatisticsFromDatabase db (convertReportFilter bf)) ∧
    (convertReportFilter bf).includeStatistics = false ∧
    (convertReportFilter bf).includeComparison = false ∧
    (generateAdvancedStatisticsFromDatabase db
      (convertReportFilter bf)).overallStatistics = none ∧
    ∀ s ∈ (generateAdvancedStatisticsFromDatabase db
        (convertReportFilter bf)).subjects,
      s.statisticalAnalysis = none ∧ s.comparison = none ∧
      ∃ p, s.statistics.percentages = some p := by
  refine ⟨rfl, rfl, rfl, ?_, ?_⟩
  · simp only [generate_eq]
    rw [if_neg]
    rintro ⟨hfalse, -⟩
    simp [convertReportFilter] at hfalse
  · intro s hs
    simp only [generate_eq] at hs
    unfold sortResults at hs
    have hs2 := (List.perm_insertionSort _ _).mem_iff.mp hs
    rw [processSubjects_eq] at hs2
    have hs3 := List.mem_of_mem_filter hs2
    rcases List.mem_map.mp hs3 with ⟨subj, -, rfl⟩
    refine ⟨?_, ?_, ?_⟩
    · rw [analyzeSubjectSafe_eq]
      dsimp only
      rw [if_neg]
      rintro ⟨hfalse, -⟩
      simp [convertReportFilter] at hfalse
    · rw [analyzeSubjectSafe_eq]
      dsimp only
      rw [if_neg]
      rintro ⟨hfalse, -⟩
      simp [convertReportFilter] at hfalse
    · rw [analyzeSubjectSafe_eq]
      dsimp only
      rw [show (convertReportFilter bf).aggregationType.getD
        AggregationType.both = AggregationType.both from rfl]
      exact Option.isSome_iff_exists.mp
        (calculateLevelStatistics_both_percentages _)

theorem natFloor_sqrt_natCast (n : ℕ) : ⌊Real.sqrt (n : ℝ)⌋₊ = Nat.sqrt n := by
  rw [Nat.floor_eq_iff (Real.sqrt_nonneg _)]
  exact ⟨Real.nat_sqrt_le_real_sqrt, Real.real_sqrt_lt_nat_sqrt_succ⟩

theorem ratSqrtFloor_eq_natFloor_sqrt (t : ℚ) (ht : 0 ≤ t) :
    ratSqrtFloor t = ⌊Real.sqrt (t : ℝ)⌋₊ := by
  have hdpos : (0 : ℝ) < (t.den : ℝ) := by
    exact_mod_cast t.den_pos
  have hp : 0 ≤ t.num := Rat.num_nonneg.mpr ht
  have hcast : (t : ℝ) =
      ((t.num.toNat * t.den : ℕ) : ℝ) / ((t.den : ℕ) : ℝ) ^ 2 := by
    rw [Rat.cast_def]
    push_cast [Int.toNat_of_nonneg hp]
    field_simp
    rw [show ((t.num.toNat : ℕ) : ℝ) = ((t.num : ℤ) : ℝ) from by
      exact_mod_cast congrArg (fun z : ℤ => (z : ℝ)) (Int.toNat_of_nonneg hp)]
    ring
  rw [ratSqrtFloor, hcast, Real.sqrt_div (by positivity),
    Real.sqrt_sq hdpos.le, Nat.floor_div_nat, natFloor_sqrt_natCast]

/-- Faithfulness of the integer-square-root encoding: `jsSqrtRound100`
is exactly `Math.round(Math.sqrt v * 100) / 100` — the JS rounding
`⌊x + 1/2⌋` applied to the real square root scaled by 100. -/
theorem jsSqrtRound100_eq_real (v : ℚ) (hv : 0 ≤ v) :
    jsSqrtRound100 v =
      ((⌊Real.sqrt (v : ℝ) * 100 + 1 / 2⌋ : ℤ) : ℚ) / 100 := by
  have h40 : (0 : ℚ) ≤ 40000 * v := by positivity
  have hx : (0 : ℝ) ≤ Real.sqrt (((40000 * v : ℚ)) : ℝ) := Real.sqrt_nonneg _
  have hsq : Real.sqrt (((40000 * v : ℚ)) : ℝ) = 200 * Real.sqrt (v : ℝ) := by
    push_cast
    rw [Real.sqrt_mul (by norm_num) ((v : ℝ)),
      show ((40000 : ℝ)) = 200 ^ 2 by norm_num, Real.sqrt_sq (by norm_num)]
  have harg : Real.sqrt (v : ℝ) * 100 + 1 / 2 =
      (Real.sqrt (((40000 * v : ℚ)) : ℝ) + 1) / 2 := by
    rw [hsq]
    ring
  have hnnarg : (0 : ℝ) ≤ Real.sqrt (v : ℝ) * 100 + 1 / 2 := by
    have := Real.sqrt_nonneg ((v : ℝ))
    positivity
  have hfloorNat : ⌊Real.sqrt (v : ℝ) * 100 + 1 / 2⌋₊ =
      (⌊Real.sqrt (((40000 * v : ℚ)) : ℝ)⌋₊ + 1) / 2 := by
    rw [harg, show ((2 : ℝ)) = ((2 : ℕ) : ℝ) by norm_num,
      Nat.floor_div_nat, Nat.floor_add_one hx]
  have hIntNat : (⌊Real.sqrt (v : ℝ) * 100 + 1 / 2⌋ : ℤ) =
      ((⌊Real.sqrt (v : ℝ) * 100 + 1 / 2⌋₊ : ℕ) : ℤ) := by
    rw [← Int.floor_toNat, Int.toNat_of_nonneg (Int.floor_nonneg.mpr hnnarg)]
  rw [jsSqrtRound100, ratSqrtFloor_eq_natFloor_sqrt (40000 * v) h40, hIntNat,
    Int.cast_natCast, hfloorNat]

end StudentDashboard
